import Mathlib

/-!
Shallow embedding of `src/scripts/claude-orchestrator.py`
(`ClaudeOrchestrator` and its helpers), used to check the workflow-engine
specification against the code.

Modelling conventions:
* The external `claude` process (`subprocess.run`) is an oracle
  `Invoker : List String → Option Nat → Option String`, applied to the
  built command line and the timeout; `none` covers all three failure
  modes of the Python code (non-zero exit, `TimeoutExpired`, launch
  exception), `some out` is a zero exit with captured stdout.
* Python `eval` of a condition string is an oracle `String → Bool`
  (the code calls `eval(condition)` with no restriction and no context
  argument).
* `datetime.now()` is modelled by a monotone counter `clock` in the
  orchestrator state; each history append stamps the current counter.
* Step dictionaries are modelled by a record carrying every key the code
  reads, with the `dict.get` defaults of the code baked in; a missing
  `"prompt"` key is `none` (reading it raises `KeyError`).
* Uncaught Python exceptions (`KeyError`, `ValueError` from enum
  conversion, `ValueError` from `time.sleep` on a negative duration) are
  the `Except.error` outcome of the executor.
* The filesystem is an association list path ↦ document; `json.dump` of
  a workflow or history dict is modelled as storing the structured value
  itself (the JSON encoding of these dicts is lossless).
-/

namespace Orch

/-- `class ClaudeTool(Enum)` of the source. -/
inductive ClaudeTool where
  | task | bash | edit | write | read | webfetch | websearch | batch | glob | grep | ls
deriving DecidableEq, Repr

/-- The `.value` of each `ClaudeTool` member. -/
def ClaudeTool.value : ClaudeTool → String
  | .task => "Task"
  | .bash => "Bash"
  | .edit => "Edit"
  | .write => "Write"
  | .read => "Read"
  | .webfetch => "WebFetch"
  | .websearch => "WebSearch"
  | .batch => "Batch"
  | .glob => "Glob"
  | .grep => "Grep"
  | .ls => "LS"

/-- `ClaudeTool(tool)`: enum lookup by value; `none` models the
`ValueError` Python raises on an unrecognized token. -/
def ClaudeTool.fromString? (s : String) : Option ClaudeTool :=
  if s = "Task" then some .task
  else if s = "Bash" then some .bash
  else if s = "Edit" then some .edit
  else if s = "Write" then some .write
  else if s = "Read" then some .read
  else if s = "WebFetch" then some .webfetch
  else if s = "WebSearch" then some .websearch
  else if s = "Batch" then some .batch
  else if s = "Glob" then some .glob
  else if s = "Grep" then some .grep
  else if s = "LS" then some .ls
  else none

/-- `class ThinkLevel(Enum)` of the source. -/
inductive ThinkLevel where
  | normal | think | thinkHard | thinkHarder | ultrathink | megathink
deriving DecidableEq, Repr

/-- The `.value` of each `ThinkLevel` member. -/
def ThinkLevel.value : ThinkLevel → String
  | .normal => ""
  | .think => "think"
  | .thinkHard => "think hard"
  | .thinkHarder => "think harder"
  | .ultrathink => "ultrathink"
  | .megathink => "megathink"

/-- `ThinkLevel(s)`: enum lookup by value; `none` models the `ValueError`
on an unrecognized string. -/
def ThinkLevel.fromString? (s : String) : Option ThinkLevel :=
  if s = "" then some .normal
  else if s = "think" then some .think
  else if s = "think hard" then some .thinkHard
  else if s = "think harder" then some .thinkHarder
  else if s = "ultrathink" then some .ultrathink
  else if s = "megathink" then some .megathink
  else none

/-- One record of `self.workflow_history` as appended by
`run_claude_code`. -/
structure HistoryEntry where
  timestamp : Nat
  type : String
  prompt : String
  tools : List String
  think_level : String
  success : Bool
deriving DecidableEq, Repr

/-- The orchestrator's mutable state: the in-memory history list and the
clock backing `datetime.now()`. -/
structure OrchState where
  workflow_history : List HistoryEntry := []
  clock : Nat := 0
deriving DecidableEq, Repr

/-- The external process: command line and timeout in, `some stdout` on
exit code 0, `none` on non-zero exit, timeout, or launch failure. -/
abbrev Invoker := List String → Option Nat → Option String

/-- Whether a Python `Optional[List[ClaudeTool]]` value is truthy
(`if tools:`): not `None` and non-empty. -/
def toolsTruthy : Option (List ClaudeTool) → Bool
  | some (_ :: _) => true
  | _ => false

/-- The prompt actually sent: the think-level hint is prefixed when the
level is not `NORMAL`. -/
def promptSent (think_level : ThinkLevel) (prompt : String) : String :=
  if think_level ≠ ThinkLevel.normal
  then think_level.value ++ " " ++ prompt else prompt

/-- `[tool.value for tool in tools] if tools else []`. -/
def toolNames (tools : Option (List ClaudeTool)) : List String :=
  if toolsTruthy tools then (tools.getD []).map ClaudeTool.value else []

/-- The command line `run_claude_code` builds: `claude -p <prompt>`
plus `--allowedTools` and the tool names when `tools` is truthy. -/
def cmdOf (tools : Option (List ClaudeTool)) (prompt1 : String) : List String :=
  ["claude", "-p", prompt1] ++
    (if toolsTruthy tools then "--allowedTools" :: toolNames tools else [])

/-- The history record `run_claude_code` appends on success. -/
def entryOf (st : OrchState) (prompt1 : String) (tool_names : List String)
    (think_level : ThinkLevel) : HistoryEntry :=
  { timestamp := st.clock, type := "claude_code", prompt := prompt1,
    tools := tool_names, think_level := think_level.value, success := true }

/-- `ClaudeOrchestrator.run_claude_code`: prefixes the think level,
builds the command, invokes the external process; on success appends
exactly one history entry and returns stdout, on any failure (non-zero
exit, timeout, launch exception) returns `None` with the state
untouched. -/
def run_claude_code (invoker : Invoker) (st : OrchState) (prompt : String)
    (tools : Option (List ClaudeTool)) (think_level : ThinkLevel)
    (timeout : Option Nat) : Option String × OrchState :=
  let prompt1 := promptSent think_level prompt
  match invoker (cmdOf tools prompt1) timeout with
  | none => (none, st)
  | some out =>
    (some out,
      { workflow_history := st.workflow_history ++
          [entryOf st prompt1 (toolNames tools) think_level],
        clock := st.clock + 1 })

/-- A parallel task dict as read by `run_parallel_tasks` and the
parallel branch of `execute_workflow` (`task["prompt"]`,
`task.get("tools")`, `task.get("think_level", ThinkLevel.NORMAL)`,
`task.get("timeout")`, `task.get("required", True)`). -/
structure TaskSpec where
  prompt : String
  tools : Option (List ClaudeTool) := none
  think_level : ThinkLevel := ThinkLevel.normal
  timeout : Option Nat := none
  required : Bool := true
deriving DecidableEq, Repr

/-- `ClaudeOrchestrator.run_parallel_tasks`: runs every task through
`run_claude_code` and gathers the results positionally
(`asyncio.gather` keeps the result list aligned with the task list).
The concurrent history appends are linearized in task order; no claim
below depends on the interleaving. -/
def run_parallel_tasks (invoker : Invoker) (st : OrchState) :
    List TaskSpec → List (Option String) × OrchState
  | [] => ([], st)
  | t :: ts =>
    let r := run_claude_code invoker st t.prompt t.tools t.think_level t.timeout
    let rs := run_parallel_tasks invoker r.2 ts
    (r.1 :: rs.1, rs.2)

/-- A step dict of a workflow, with every key the executor reads and the
`dict.get` defaults of the code. `prompt?` is `none` when the `"prompt"`
key is absent (the code would raise `KeyError`). A single constructor
keeps the nested `List Step` structurally available. -/
inductive Step where
  | mk (type? : Option String) (name? : Option String)
       (prompt? : Option String) (tools : List String)
       (think_level : String) (timeout? : Option Nat) (required : Bool)
       (tasks : List TaskSpec) (seconds : Int)
       (condition? : Option String) (steps : List Step) : Step

/-- `step.get("type", "claude_code")`. -/
def Step.stepType : Step → String
  | .mk t _ _ _ _ _ _ _ _ _ _ => t.getD "claude_code"

def Step.required : Step → Bool
  | .mk _ _ _ _ _ _ r _ _ _ _ => r

def Step.nested : Step → List Step
  | .mk _ _ _ _ _ _ _ _ _ _ n => n

/-- An uncaught Python exception escaping `execute_workflow`. -/
inductive PyError where
  | keyError (key : String)
  | valueError (what : String)
deriving DecidableEq, Repr

/-- Python truthiness of `not result` for `result : Optional[str]`:
`None` and the empty string are falsy. -/
def resultFalsy : Option String → Bool
  | none => true
  | some s => s = ""

/-- `[ClaudeTool(tool) for tool in step.get("tools", [])]`; `none` when
any token is unrecognized (the comprehension raises `ValueError`). -/
def toolsOf? : List String → Option (List ClaudeTool)
  | [] => some []
  | t :: ts =>
    match ClaudeTool.fromString? t, toolsOf? ts with
    | some c, some cs => some (c :: cs)
    | _, _ => none

/-- Outcome of one iteration of the step loop in `execute_workflow`. -/
inductive StepRes where
  | next (st : OrchState)
  | abort (st : OrchState)
  | err (e : PyError) (st : OrchState)

mutual

/-- One iteration of the `for i, step in enumerate(workflow["steps"])`
body of `ClaudeOrchestrator.execute_workflow`: dispatch on
`step.get("type", "claude_code")`; `abort` is `return False`, `err` an
uncaught exception, `next` falls through to the next step. -/
def execStep (invoker : Invoker) (evalO : String → Bool) (wfName : String) :
    Step → OrchState → StepRes
  | .mk type? _name? prompt? tools think_level timeout? required
       tasks seconds condition? nested, st =>
    let step_type := type?.getD "claude_code"
    if step_type = "claude_code" then
      match prompt? with
      | none => .err (.keyError "prompt") st
      | some prompt =>
        match toolsOf? tools with
        | none => .err (.valueError "ClaudeTool") st
        | some toolList =>
          match ThinkLevel.fromString? think_level with
          | none => .err (.valueError "ThinkLevel") st
          | some tl =>
            let r := run_claude_code invoker st prompt (some toolList) tl timeout?
            if resultFalsy r.1 && required then .abort r.2
            else .next r.2
    else if step_type = "parallel" then
      let r := run_parallel_tasks invoker st tasks
      if (tasks.zip r.1).any (fun p => resultFalsy p.2 && p.1.required) then
        .abort r.2
      else .next r.2
    else if step_type = "wait" then
      if seconds < 0 then .err (.valueError "sleep") st else .next st
    else if step_type = "conditional" then
      match condition? with
      | some c =>
        if c ≠ "" && evalO c then
          match execSteps invoker evalO (wfName ++ " - Conditional") nested st with
          | (Except.error e, st1) => .err e st1
          | (Except.ok _, st1) => .next st1
        else .next st
      | none => .next st
    else .next st

/-- The step loop of `ClaudeOrchestrator.execute_workflow` over a step
list: runs steps in order, returns `false` at the first `abort`,
propagates uncaught exceptions, returns `true` past the end. -/
def execSteps (invoker : Invoker) (evalO : String → Bool) (wfName : String) :
    List Step → OrchState → Except PyError Bool × OrchState
  | [], st => (Except.ok true, st)
  | s :: rest, st =>
    match execStep invoker evalO wfName s st with
    | .next st1 => execSteps invoker evalO wfName rest st1
    | .abort st1 => (Except.ok false, st1)
    | .err e st1 => (Except.error e, st1)

end

/-- The workflow dict created by `create_workflow` (`name`,
`description`, `created`, `steps`). The conditional branch builds a
sub-dict with only `name` and `steps`; `execute_workflow` never reads
the other two keys, so defaults stand in for them there. -/
structure Workflow where
  name : String
  description : String := ""
  created : String := ""
  steps : List Step

/-- `ClaudeOrchestrator.execute_workflow` on a workflow dict:
`Except.ok b` is the Python return value `b`, `Except.error` an
uncaught exception. -/
def execute_workflow (invoker : Invoker) (evalO : String → Bool)
    (st : OrchState) (wf : Workflow) : Except PyError Bool × OrchState :=
  execSteps invoker evalO wf.name wf.steps st

/-- A document written by the orchestrator: `json.dump` of a workflow
dict or of the history list. -/
inductive FileData where
  | workflowDoc (w : Workflow)
  | historyDoc (h : List HistoryEntry)

/-- The filesystem: association list from path to document; the head of
the list is the most recent write to each path. -/
abbrev FileSystem := List (String × FileData)

/-- `open(path, 'w')` followed by `json.dump`: truncating write that
replaces any previous document at `path`. -/
def fsWrite (fs : FileSystem) (path : String) (d : FileData) : FileSystem :=
  (path, d) :: fs.filter (fun e => e.1 ≠ path)

/-- Read the document stored at `path`, if any. -/
def fsRead (fs : FileSystem) (path : String) : Option FileData :=
  (fs.find? (fun e => e.1 = path)).map (fun e => e.2)

/-- `f"workflows/\x7bname.lower().replace(' ', '-')\x7d.json"`: the
storage key `create_workflow` derives from a workflow name. -/
def workflowKey (name : String) : String :=
  "workflows/" ++ (name.toLower.replace " " "-") ++ ".json"

/-- `ClaudeOrchestrator.create_workflow`: builds the workflow dict with
a creation timestamp `now` and unconditionally writes it under the
derived key (the code performs no validation of name or steps). -/
def create_workflow (now : String) (fs : FileSystem) (name description : String)
    (steps : List Step) : Workflow × FileSystem :=
  let workflow : Workflow :=
    { name := name, description := description, created := now, steps := steps }
  (workflow, fsWrite fs (workflowKey name) (FileData.workflowDoc workflow))

/-- Modelled from the spec: src/ has no load operation for workflows
(only `create_workflow` exists); §4.2 gives the contract
`load(name) -> Result<Workflow, NotFound>` against the store that
`create` persists to, keyed by the lower-cased name with whitespace
replaced by the separator. -/
def load (fs : FileSystem) (name : String) : Except String Workflow :=
  match fsRead fs (workflowKey name) with
  | some (FileData.workflowDoc w) => Except.ok w
  | _ => Except.error "NotFound"

/-- `ClaudeOrchestrator.save_history`: truncating write of the
accumulated history list to `filename` (default
`"workflow-history.json"` at the call site). -/
def save_history (fs : FileSystem) (st : OrchState) (filename : String) :
    FileSystem :=
  fsWrite fs filename (FileData.historyDoc st.workflow_history)

/-! ## Helper lemmas -/

/-- The value `run_claude_code` returns is exactly what the external
process produced for the built command; it does not depend on the
orchestrator state. -/
theorem run_claude_code_fst (invoker : Invoker) (st : OrchState)
    (prompt : String) (tools : Option (List ClaudeTool)) (tl : ThinkLevel)
    (timeout : Option Nat) :
    (run_claude_code invoker st prompt tools tl timeout).1 =
      invoker (cmdOf tools (promptSent tl prompt)) timeout := by
  unfold run_claude_code
  cases h : invoker (cmdOf tools (promptSent tl prompt)) timeout <;> simp [h]

/-- State evolution of `run_claude_code`: on failure the state is
untouched, on success exactly one entry is appended and the clock
ticks. -/
theorem run_claude_code_snd (invoker : Invoker) (st : OrchState)
    (prompt : String) (tools : Option (List ClaudeTool)) (tl : ThinkLevel)
    (timeout : Option Nat) :
    (run_claude_code invoker st prompt tools tl timeout).2 =
      match invoker (cmdOf tools (promptSent tl prompt)) timeout with
      | none => st
      | some _ =>
        { workflow_history := st.workflow_history ++
            [entryOf st (promptSent tl prompt) (toolNames tools) tl],
          clock := st.clock + 1 } := by
  unfold run_claude_code
  cases h : invoker (cmdOf tools (promptSent tl prompt)) timeout <;> simp [h]

/-- A step-list prefix that runs to completion composes: executing the
concatenation continues into the suffix from the prefix's final
state. -/
theorem execSteps_append_ok (invoker : Invoker) (evalO : String → Bool)
    (wfName : String) (l1 l2 : List Step) (st st1 : OrchState)
    (h : execSteps invoker evalO wfName l1 st = (Except.ok true, st1)) :
    execSteps invoker evalO wfName (l1 ++ l2) st =
      execSteps invoker evalO wfName l2 st1 := by
  induction l1 generalizing st with
  | nil =>
    simp only [execSteps] at h
    cases h
    rfl
  | cons s l1 ih =>
    rw [List.cons_append]
    simp only [execSteps] at h ⊢
    cases hs : execStep invoker evalO wfName s st with
    | next st2 => rw [hs] at h; exact ih st2 h
    | abort st2 => rw [hs] at h; cases h
    | err e st2 => rw [hs] at h; cases h

/-! ## Claim theorems -/

/-- C1: In any workflow, once execution reaches a `claude_code`
step with `required = true` whose invocation fails (the invoker returns
no result for the built command), `execute_workflow` returns `false`
immediately: the final state is exactly the state reached before the
failing step, so neither the failing step nor any step after it is
executed or recorded in history. -/
theorem C1_required_invoke_failure_aborts
    (invoker : Invoker) (evalO : String → Bool)
    (wfName desc created : String) (pre post : List Step)
    (st st1 : OrchState)
    (hpre : execSteps invoker evalO wfName pre st = (Except.ok true, st1))
    (nm : Option String) (prompt : String) (tools : List String)
    (th : String) (timeout : Option Nat) (tasks : List TaskSpec)
    (sec : Int) (cond : Option String) (nested : List Step)
    (toolList : List ClaudeTool) (htools : toolsOf? tools = some toolList)
    (tl : ThinkLevel) (hth : ThinkLevel.fromString? th = some tl)
    (hfail : invoker (cmdOf (some toolList) (promptSent tl prompt)) timeout
      = none) :
    execute_workflow invoker evalO st
      { name := wfName, description := desc, created := created,
        steps := pre ++ Step.mk (some "claude_code") nm (some prompt) tools
          th timeout true tasks sec cond nested :: post }
      = (Except.ok false, st1) := by
  show execSteps invoker evalO wfName
      (pre ++ Step.mk (some "claude_code") nm (some prompt) tools
        th timeout true tasks sec cond nested :: post) st
    = (Except.ok false, st1)
  rw [execSteps_append_ok invoker evalO wfName pre _ st st1 hpre]
  simp only [execSteps, execStep, Option.getD, htools, hth, if_pos rfl]
  rw [run_claude_code]
  simp [hfail, resultFalsy]

/-- Concrete instance of C1: a two-step workflow whose first (required)
`claude_code` step fails under an always-failing invoker aborts with
`false` before the marker step, leaving the history empty. -/
theorem C1_required_invoke_failure_aborts_witness :
    execute_workflow (fun _ _ => none) (fun _ => true)
      { workflow_history := [], clock := 0 }
      { name := "W", description := "", created := "",
        steps := [Step.mk (some "claude_code") none (some "list files") []
            "" none true [] 1 none [],
          Step.mk (some "claude_code") (some "marker") (some "marker") []
            "" none true [] 1 none []] }
      = (Except.ok false, { workflow_history := [], clock := 0 }) := by
  have h := C1_required_invoke_failure_aborts (fun _ _ => none)
    (fun _ => true) "W" "" "" []
    [Step.mk (some "claude_code") (some "marker") (some "marker") [] ""
      none true [] 1 none []]
    { workflow_history := [], clock := 0 }
    { workflow_history := [], clock := 0 } rfl
    none "list files" [] "" none [] 1 none [] [] rfl ThinkLevel.normal rfl
    rfl
  exact h

/-- C2 is violated by the code (`code_bug`): the conditional branch
of `execute_workflow` discards the recursive call's return value
(`self.execute_workflow(sub_workflow)` on line 207 is not consulted),
so a required step failing inside a taken conditional branch does not
propagate: here the nested sub-workflow alone yields `false`, yet the
outer `execute_workflow` returns `true`. -/
theorem C2_conditional_failure_not_propagated :
    (execSteps (fun _ _ => none) (fun _ => true) "Outer - Conditional"
        [Step.mk (some "claude_code") none (some "must succeed") [] ""
          none true [] 1 none []]
        { workflow_history := [], clock := 0 }
      = (Except.ok false, { workflow_history := [], clock := 0 }))
    ∧
    (execute_workflow (fun _ _ => none) (fun _ => true)
        { workflow_history := [], clock := 0 }
        { name := "Outer", description := "", created := "",
          steps := [Step.mk (some "conditional") none none [] "" none true
            [] 1 (some "True")
            [Step.mk (some "claude_code") none (some "must succeed") [] ""
              none true [] 1 none []]] }
      = (Except.ok true, { workflow_history := [], clock := 0 })) :=
  ⟨rfl, rfl⟩

/-- C6: `run_claude_code` appends exactly one history entry if and
only if the invocation completes successfully; a failed invocation
leaves the state untouched, so a subsequent invocation behaves exactly
as if the failed one had never run (in particular a later successful
invocation still appends its own entry). -/
theorem C6_history_entry_iff_success (invoker : Invoker) (st : OrchState)
    (prompt : String) (tools : Option (List ClaudeTool)) (tl : ThinkLevel)
    (timeout : Option Nat) (prompt2 : String)
    (tools2 : Option (List ClaudeTool)) (tl2 : ThinkLevel)
    (timeout2 : Option Nat) :
    ((run_claude_code invoker st prompt tools tl timeout).2.workflow_history
      = if (run_claude_code invoker st prompt tools tl timeout).1.isSome
        then st.workflow_history ++
          [entryOf st (promptSent tl prompt) (toolNames tools) tl]
        else st.workflow_history)
    ∧
    ((run_claude_code invoker st prompt tools tl timeout).1 = none →
      run_claude_code invoker
          (run_claude_code invoker st prompt tools tl timeout).2
          prompt2 tools2 tl2 timeout2
        = run_claude_code invoker st prompt2 tools2 tl2 timeout2) := by
  constructor
  · rw [run_claude_code_snd, run_claude_code_fst]
    cases invoker (cmdOf tools (promptSent tl prompt)) timeout <;> rfl
  · intro hfail
    rw [run_claude_code_fst] at hfail
    rw [run_claude_code_snd, hfail]

/-- Concrete instance of C6: under an invoker that fails on prompt "a"
and succeeds on prompt "b", the failed call appends nothing and the
subsequent successful call still appends exactly its entry. -/
theorem C6_history_entry_iff_success_witness :
    run_claude_code
        (fun cmd _ => if cmd = ["claude", "-p", "a"] then none
          else some "ok")
        (run_claude_code
          (fun cmd _ => if cmd = ["claude", "-p", "a"] then none
            else some "ok")
          { workflow_history := [], clock := 0 } "a" none ThinkLevel.normal
          none).2
        "b" none ThinkLevel.normal none
      = run_claude_code
          (fun cmd _ => if cmd = ["claude", "-p", "a"] then none
            else some "ok")
          { workflow_history := [], clock := 0 } "b" none ThinkLevel.normal
          none :=
  (C6_history_entry_iff_success
    (fun cmd _ => if cmd = ["claude", "-p", "a"] then none else some "ok")
    { workflow_history := [], clock := 0 } "a" none ThinkLevel.normal none
    "b" none ThinkLevel.normal none).2 rfl

/-- `create_workflow` always writes its document at the derived key:
there is no validation path in the code. -/
theorem create_workflow_persists (now : String) (fs : FileSystem)
    (name description : String) (steps : List Step) :
    fsRead (create_workflow now fs name description steps).2
        (workflowKey name)
      = some (FileData.workflowDoc
          { name := name, description := description, created := now,
            steps := steps }) := by
  simp [create_workflow, fsRead, fsWrite, List.find?]

/-- C3 fails on the code: `create_workflow` called with an empty
step sequence writes a workflow file to storage all the same (on an
initially empty filesystem, the derived key now holds the document). -/
theorem C3_empty_steps_still_persisted :
    fsRead (create_workflow "2025-01-01T00:00:00" [] "Empty Flow" "d" []).2
        (workflowKey "Empty Flow")
      = some (FileData.workflowDoc
          { name := "Empty Flow", description := "d",
            created := "2025-01-01T00:00:00", steps := [] }) :=
  create_workflow_persists "2025-01-01T00:00:00" [] "Empty Flow" "d" []

/-- C3 amended: `create_workflow` performs no validation at all:
for every name, description and step sequence — including an empty
sequence, an empty name, Invoke steps with empty instruction, Wait
steps with negative duration, or Conditional steps with an empty nested
sequence — it unconditionally writes the workflow document to storage
under the derived key. -/
theorem C3_create_never_validates (now : String) (fs : FileSystem)
    (name description : String) (steps : List Step) :
    fsRead (create_workflow now fs name description steps).2
        (workflowKey name)
      = some (FileData.workflowDoc
          { name := name, description := description, created := now,
            steps := steps }) :=
  create_workflow_persists now fs name description steps

/-- C7: Creating a workflow and loading it back by the same name
succeeds and yields the very same workflow document — in particular an
equal step sequence (same kinds, same field values, same order). The
`load` operation is modelled from the spec (src/ has none). -/
theorem C7_create_load_roundtrip (now : String) (fs : FileSystem)
    (name description : String) (steps : List Step) :
    load (create_workflow now fs name description steps).2 name
      = Except.ok
          { name := name, description := description, created := now,
            steps := steps } := by
  rw [load, create_workflow_persists]

/-- The result list of `run_parallel_tasks` is the task list mapped
through the external invocation: same length, positionally aligned,
independent of the orchestrator state. -/
theorem run_parallel_tasks_fst (invoker : Invoker) (st : OrchState)
    (tasks : List TaskSpec) :
    (run_parallel_tasks invoker st tasks).1 =
      tasks.map (fun t =>
        invoker (cmdOf t.tools (promptSent t.think_level t.prompt))
          t.timeout) := by
  induction tasks generalizing st with
  | nil => rfl
  | cons t ts ih =>
    simp only [run_parallel_tasks, List.map_cons]
    rw [run_claude_code_fst, ih]

/-- Unfolding of the step executor on a `parallel` step: fan out, then
abort iff some required task's result is falsy. -/
theorem execStep_parallel (invoker : Invoker) (evalO : String → Bool)
    (wfName : String) (nm prompt? : Option String) (tools : List String)
    (th : String) (tmo : Option Nat) (rq : Bool) (tasks : List TaskSpec)
    (sec : Int) (cond : Option String) (nested : List Step)
    (st : OrchState) :
    execStep invoker evalO wfName
        (Step.mk (some "parallel") nm prompt? tools th tmo rq tasks sec
          cond nested) st
      = if (tasks.zip (run_parallel_tasks invoker st tasks).1).any
            (fun p => resultFalsy p.2 && p.1.required)
        then StepRes.abort (run_parallel_tasks invoker st tasks).2
        else StepRes.next (run_parallel_tasks invoker st tasks).2 := by
  simp [execStep]

/-- C5 fails on the code as stated: with three parallel tasks whose
invocations all complete (the second with empty output), the result
list is full and positionally aligned — no task "produced no result" —
yet the enclosing Parallel step still fails, because the code treats
falsy (empty-string) output as failure. -/
theorem C5_full_results_but_step_fails :
    ((run_parallel_tasks
        (fun cmd _ => if cmd = ["claude", "-p", "t2"] then some ""
          else some "r")
        { workflow_history := [], clock := 0 }
        [{ prompt := "t1" }, { prompt := "t2" }, { prompt := "t3" }]).1
      = [some "r", some "", some "r"])
    ∧
    ((execute_workflow
        (fun cmd _ => if cmd = ["claude", "-p", "t2"] then some ""
          else some "r")
        (fun _ => true) { workflow_history := [], clock := 0 }
        { name := "P", description := "", created := "",
          steps := [Step.mk (some "parallel") none none [] "" none true
            [{ prompt := "t1" }, { prompt := "t2" }, { prompt := "t3" }]
            1 none []] }).1
      = Except.ok false) :=
  ⟨rfl, rfl⟩

/-- C5 amended: `run_parallel_tasks` returns one result per task,
positionally aligned (result `i` is the invocation outcome of task
`i`), with no result missing or reordered even when some tasks fail;
the enclosing Parallel step fails (`execute_workflow` returns `false`)
iff some sub-task marked required produced no result or an
empty-string result (Python truthiness: `not result`). -/
theorem C5_parallel_alignment_and_failure (invoker : Invoker)
    (evalO : String → Bool) (st : OrchState) (tasks : List TaskSpec)
    (wfName d c : String) (nm prompt? : Option String)
    (tools : List String) (th : String) (tmo : Option Nat) (rq : Bool)
    (sec : Int) (cond : Option String) (nested : List Step) :
    ((run_parallel_tasks invoker st tasks).1.length = tasks.length)
    ∧
    ((run_parallel_tasks invoker st tasks).1 =
      tasks.map (fun t =>
        invoker (cmdOf t.tools (promptSent t.think_level t.prompt))
          t.timeout))
    ∧
    ((execute_workflow invoker evalO st
        { name := wfName, description := d, created := c,
          steps := [Step.mk (some "parallel") nm prompt? tools th tmo rq
            tasks sec cond nested] }).1
      = Except.ok false
      ↔ ∃ p ∈ tasks.zip (run_parallel_tasks invoker st tasks).1,
          p.1.required = true ∧ resultFalsy p.2 = true) := by
  refine ⟨by rw [run_parallel_tasks_fst]; simp,
    run_parallel_tasks_fst invoker st tasks, ?_⟩
  show (execSteps invoker evalO wfName
      [Step.mk (some "parallel") nm prompt? tools th tmo rq tasks sec cond
        nested] st).1 = Except.ok false ↔ _
  simp only [execSteps]
  rw [execStep_parallel]
  cases hany : (tasks.zip (run_parallel_tasks invoker st tasks).1).any
      (fun p => resultFalsy p.2 && p.1.required) with
  | true =>
    rw [if_pos rfl]
    rw [List.any_eq_true] at hany
    obtain ⟨p, hp, hcond⟩ := hany
    rw [Bool.and_eq_true] at hcond
    exact ⟨fun _ => ⟨p, hp, hcond.2, hcond.1⟩, fun _ => rfl⟩
  | false =>
    rw [if_neg (by simp)]
    rw [List.any_eq_false] at hany
    constructor
    · intro hfalse; simp only [execSteps] at hfalse; cases hfalse
    · rintro ⟨p, hp, hreq, hfalsy⟩
      have h2 := hany p hp
      rw [hfalsy, hreq] at h2
      exact absurd rfl h2

/-- C9: `save_history` is idempotent: saving the same in-memory
buffer twice in succession to the same path yields exactly the
filesystem produced by a single fresh save (the second write overwrites
rather than appends). -/
theorem C9_save_history_idempotent (fs : FileSystem) (st : OrchState)
    (filename : String) :
    save_history (save_history fs st filename) st filename
      = save_history fs st filename := by
  simp [save_history, fsWrite, List.filter_filter]

/-- The tool conversion of the claude_code branch fails exactly when
the step's tools list contains a token the enum does not recognize. -/
theorem toolsOf?_eq_none_iff (tools : List String) :
    toolsOf? tools = none
      ↔ ∃ t ∈ tools, ClaudeTool.fromString? t = none := by
  induction tools with
  | nil => simp [toolsOf?]
  | cons t ts ih =>
    rw [toolsOf?]
    cases h : ClaudeTool.fromString? t with
    | none => simp [h]
    | some c =>
      cases h2 : toolsOf? ts with
      | none => simpa [h, h2] using ih.1 h2
      | some cs =>
        simp only [List.mem_cons]
        constructor
        · intro hcontra; cases hcontra
        · rintro ⟨u, hu | hu, hbad⟩
          · subst hu; rw [h] at hbad; cases hbad
          · exact absurd (ih.2 ⟨u, hu, hbad⟩) (by simp [h2])

/-- C8 fails on the code: a `claude_code` step listing the unknown
tool token "Hammer" makes `execute_workflow` raise an uncaught
`ValueError` from the enum conversion — the capability is neither
rejected with a boolean outcome nor stripped, no invocation happens,
and no boolean is returned. -/
theorem C8_unknown_tool_raises :
    execute_workflow (fun _ _ => some "ok") (fun _ => true)
        { workflow_history := [], clock := 0 }
        { name := "W", description := "", created := "",
          steps := [Step.mk (some "claude_code") none (some "p")
            ["Hammer"] "" none true [] 1 none []] }
      = (Except.error (PyError.valueError "ClaudeTool"),
         { workflow_history := [], clock := 0 }) := rfl

/-- C8 amended: A `claude_code` step whose tools list contains any
token that is not a `ClaudeTool` value makes `execute_workflow` raise
an uncaught `ValueError` before any invocation: the unrecognized
capability is not stripped, no boolean outcome is returned, and the
state (history) is unchanged. -/
theorem C8_unknown_tool_uncaught_valueerror (invoker : Invoker)
    (evalO : String → Bool) (st : OrchState) (wfName d c : String)
    (nm : Option String) (prompt : String) (tools : List String)
    (th : String) (tmo : Option Nat) (rq : Bool) (tasks : List TaskSpec)
    (sec : Int) (cond : Option String) (nested rest : List Step)
    (hbad : ∃ t ∈ tools, ClaudeTool.fromString? t = none) :
    execute_workflow invoker evalO st
        { name := wfName, description := d, created := c,
          steps := Step.mk (some "claude_code") nm (some prompt) tools th
            tmo rq tasks sec cond nested :: rest }
      = (Except.error (PyError.valueError "ClaudeTool"), st) := by
  have htools : toolsOf? tools = none := (toolsOf?_eq_none_iff tools).2 hbad
  show execSteps invoker evalO wfName
      (Step.mk (some "claude_code") nm (some prompt) tools th tmo rq tasks
        sec cond nested :: rest) st = _
  simp [execSteps, execStep, htools]

/-- Concrete instance of the amended C8: the unknown token "FOO" in a
step's tools list yields the uncaught `ValueError` outcome. -/
theorem C8_unknown_tool_uncaught_valueerror_witness :
    execute_workflow (fun _ _ => some "ok") (fun _ => false)
        { workflow_history := [], clock := 0 }
        { name := "V", description := "", created := "",
          steps := [Step.mk (some "claude_code") none (some "q")
            ["Read", "FOO"] "" none true [] 1 none []] }
      = (Except.error (PyError.valueError "ClaudeTool"),
         { workflow_history := [], clock := 0 }) :=
  C8_unknown_tool_uncaught_valueerror (fun _ _ => some "ok")
    (fun _ => false) { workflow_history := [], clock := 0 } "V" "" ""
    none "q" ["Read", "FOO"] "" none true [] 1 none [] []
    ⟨"FOO", by simp, rfl⟩

/-- A step whose declared type is none of the four recognized strings
falls through every branch of the dispatch: no action is performed. -/
theorem execStep_unknown_type (invoker : Invoker) (evalO : String → Bool)
    (wfName : String) (s : Step) (st : OrchState)
    (h1 : s.stepType ≠ "claude_code") (h2 : s.stepType ≠ "parallel")
    (h3 : s.stepType ≠ "wait") (h4 : s.stepType ≠ "conditional") :
    execStep invoker evalO wfName s st = StepRes.next st := by
  cases s with
  | mk t nm prompt? tools th tmo rq tasks sec cond nested =>
    simp only [Step.stepType] at h1 h2 h3 h4
    simp only [execStep]
    rw [if_neg h1, if_neg h2, if_neg h3, if_neg h4]

/-- C10: (a) A step whose `"type"` string is not one of
`claude_code` / `parallel` / `wait` / `conditional` is a no-op:
execution proceeds to the next step with the state unchanged. (b) A
workflow consisting only of such unrecognized steps returns `true`.
(c) A step with no `"type"` field at all is handled exactly like one
whose type is `"claude_code"`. -/
theorem C10_unknown_step_type_skipped (invoker : Invoker)
    (evalO : String → Bool) (wfName : String) (st : OrchState) :
    (∀ (t : String) (nm prompt? : Option String) (tools : List String)
       (th : String) (tmo : Option Nat) (rq : Bool)
       (tasks : List TaskSpec) (sec : Int) (cond : Option String)
       (nested rest : List Step),
       t ≠ "claude_code" → t ≠ "parallel" → t ≠ "wait" →
       t ≠ "conditional" →
       execSteps invoker evalO wfName
           (Step.mk (some t) nm prompt? tools th tmo rq tasks sec cond
             nested :: rest) st
         = execSteps invoker evalO wfName rest st)
    ∧
    (∀ (d c : String) (steps : List Step),
       (∀ s ∈ steps, s.stepType ≠ "claude_code" ∧ s.stepType ≠ "parallel"
         ∧ s.stepType ≠ "wait" ∧ s.stepType ≠ "conditional") →
       execute_workflow invoker evalO st
           { name := wfName, description := d, created := c,
             steps := steps }
         = (Except.ok true, st))
    ∧
    (∀ (nm prompt? : Option String) (tools : List String) (th : String)
       (tmo : Option Nat) (rq : Bool) (tasks : List TaskSpec) (sec : Int)
       (cond : Option String) (nested rest : List Step),
       execSteps invoker evalO wfName
           (Step.mk none nm prompt? tools th tmo rq tasks sec cond
             nested :: rest) st
         = execSteps invoker evalO wfName
             (Step.mk (some "claude_code") nm prompt? tools th tmo rq
               tasks sec cond nested :: rest) st) := by
  refine ⟨?_, ?_, ?_⟩
  · intro t nm prompt? tools th tmo rq tasks sec cond nested rest ht1 ht2
      ht3 ht4
    simp only [execSteps]
    rw [execStep_unknown_type invoker evalO wfName _ st
      (by simpa [Step.stepType] using ht1)
      (by simpa [Step.stepType] using ht2)
      (by simpa [Step.stepType] using ht3)
      (by simpa [Step.stepType] using ht4)]
  · intro d c steps hall
    show execSteps invoker evalO wfName steps st = (Except.ok true, st)
    induction steps with
    | nil => rfl
    | cons s rest ih =>
      obtain ⟨h1, h2, h3, h4⟩ := hall s (List.mem_cons_self s rest)
      simp only [execSteps]
      rw [execStep_unknown_type invoker evalO wfName s st h1 h2 h3 h4]
      exact ih (fun x hx => hall x (List.mem_cons_of_mem s hx))
  · intro nm prompt? tools th tmo rq tasks sec cond nested rest
    rfl

/-- Concrete instance of C10: a workflow of two steps with the made-up
types "noop" and "checkpoint" completes with `true` and no state
change, and an untyped step is dispatched as claude_code (here: its
required invocation fails, aborting with `false`). -/
theorem C10_unknown_step_type_skipped_witness :
    (execute_workflow (fun _ _ => none) (fun _ => true)
        { workflow_history := [], clock := 0 }
        { name := "U", description := "", created := "",
          steps := [Step.mk (some "noop") none none [] "" none true [] 1
              none [],
            Step.mk (some "checkpoint") none none [] "" none true [] 1
              none []] }
      = (Except.ok true, { workflow_history := [], clock := 0 }))
    ∧
    (execSteps (fun _ _ => none) (fun _ => true) "U"
        [Step.mk none none (some "p") [] "" none true [] 1 none []]
        { workflow_history := [], clock := 0 }
      = execSteps (fun _ _ => none) (fun _ => true) "U"
          [Step.mk (some "claude_code") none (some "p") [] "" none true []
            1 none []]
          { workflow_history := [], clock := 0 }) := by
  constructor
  · refine (C10_unknown_step_type_skipped (fun _ _ => none)
      (fun _ => true) "U" { workflow_history := [], clock := 0 }).2.1
      "" "" _ ?_
    intro s hs
    simp only [List.mem_cons, List.not_mem_nil, or_false] at hs
    rcases hs with h | h <;>
      (rw [h]; exact ⟨by decide, by decide, by decide, by decide⟩)
  · exact (C10_unknown_step_type_skipped (fun _ _ => none)
      (fun _ => true) "U" { workflow_history := [], clock := 0 }).2.2
      none (some "p") [] "" none true [] 1 none [] []

/-- C4 is violated by the code (`code_bug`): `execute_workflow`
hands a Conditional step's condition string to Python's unrestricted
`eval` — there is no caller-supplied context parameter, no name check
and no operator restriction. Here a condition that refers to an
undefined name and contains a function-call instruction is evaluated
(oracle returns truthy) and the nested steps are executed — a history
entry is recorded — instead of the condition being rejected. -/
theorem C4_condition_not_sandboxed :
    execute_workflow (fun _ _ => some "done") (fun _ => true)
        { workflow_history := [], clock := 0 }
        { name := "W", description := "", created := "",
          steps := [Step.mk (some "conditional") none none [] "" none true
            [] 1 (some "undefined_name or os.system(payload)")
            [Step.mk (some "claude_code") none (some "nested ran") [] ""
              none true [] 1 none []]] }
      = (Except.ok true,
         { workflow_history :=
             [entryOf { workflow_history := [], clock := 0 } "nested ran"
               [] ThinkLevel.normal],
           clock := 1 }) := rfl

end Orch
